import Mathlib

/-!
# Verification of the Binance balance-aggregation client

Shallow embedding of the `BinanceApiClient` class (src `binanceApi.ts`) of the
`binance-balance-vscode` extension, together with the websocket reconnect logic
and the configuration-refresh operation.

Modelling conventions:
* JavaScript numbers (parsed decimal quantities and prices) are modelled as `ℚ`.
* Millisecond clock readings (`Date.now()`, `lastUpdateTime`) are `ℕ`; the
  subtractions `Date.now() - this.lastUpdateTime` that JavaScript performs on
  signed numbers are carried out in `ℤ`.
* The fallible network is an oracle `Env` fixing, for one invocation, the
  outcome of each REST fetch and of the single-symbol price endpoint.
* Methods that mutate the client mutate an explicit `ClientState`; each
  operation additionally reports the number of HTTP requests it issued and
  (for the background path) the list of subscriber-callback invocations.
* JavaScript's `String.prototype.toUpperCase` is modelled by `upper`, mapping
  `Char.toUpper` over the characters of the string.
-/

/-- `balance.free` / `balance.locked` entry of `/api/v3/account` (after
`parseFloat`). -/
structure BalanceInfo where
  asset : String
  free : ℚ
  locked : ℚ
  deriving Repr, DecidableEq

/-- `userAssets` entry of `/sapi/v1/margin/account` (only the fields the
aggregator reads). -/
structure MarginBalanceInfo where
  asset : String
  netAsset : ℚ
  deriving Repr, DecidableEq

/-- One side (base or quote) of an isolated-margin pair. -/
structure IsoSide where
  asset : String
  netAsset : ℚ
  deriving Repr, DecidableEq

/-- `assets` entry of `/sapi/v1/margin/isolated/account`. -/
structure IsolatedMarginAsset where
  baseAsset : IsoSide
  quoteAsset : IsoSide
  deriving Repr, DecidableEq

/-- The aggregated snapshot returned by `getTotalEstimatedBalance`. -/
structure TotalEstimatedBalance where
  totalUSDT : ℚ
  spotUSDT : ℚ
  marginUSDT : ℚ
  isolatedMarginUSDT : ℚ
  deriving Repr, DecidableEq

/-- JavaScript `toUpperCase` (ASCII, as used on trading-pair symbols):
uppercase every character. -/
def upper (s : String) : String :=
  ⟨s.data.map Char.toUpper⟩

/-- `Map.set`: insert or overwrite the binding of key `k`. -/
def cacheSet (c : List (String × ℚ)) (k : String) (v : ℚ) : List (String × ℚ) :=
  match c with
  | [] => [(k, v)]
  | (k₀, v₀) :: rest =>
      if k₀ = k then (k, v) :: rest else (k₀, v₀) :: cacheSet rest k v

/-- `Map.get` / `Map.has`: look up the binding of key `k`. -/
def cacheGet? (c : List (String × ℚ)) (k : String) : Option ℚ :=
  match c with
  | [] => none
  | (k₀, v₀) :: rest => if k₀ = k then some v₀ else cacheGet? rest k

/-- The mutable fields of `BinanceApiClient`. -/
structure ClientState where
  apiKey : String
  apiSecret : String
  wsOpen : Bool
  priceCache : List (String × ℚ)
  balanceCache : Option TotalEstimatedBalance
  lastUpdateTime : ℕ
  isInitialized : Bool
  hasCallback : Bool
  deriving Repr, DecidableEq

/-- Outcome oracle for one invocation: the current clock and the result each
network endpoint would deliver. -/
structure Env where
  now : ℕ
  spotFetch : Except String (List BalanceInfo)
  marginFetch : Except String (List MarginBalanceInfo)
  isolatedFetch : Except String (List IsolatedMarginAsset)
  restPrice : String → Except String ℚ

/-- `getAccountBalance`: fetch `/api/v3/account`, keep balances with positive
free or locked amount; a failure is rethrown. -/
def getAccountBalance (env : Env) : Except String (List BalanceInfo) :=
  match env.spotFetch with
  | Except.ok l =>
      Except.ok (l.filter fun b => decide (0 < b.free) || decide (0 < b.locked))
  | Except.error e => Except.error e

/-- `getMarginAccountBalance`: fetch `/sapi/v1/margin/account`, keep assets with
nonzero net amount; a failure yields the empty list. -/
def getMarginAccountBalance (env : Env) : List MarginBalanceInfo :=
  match env.marginFetch with
  | Except.ok l => l.filter fun b => decide (b.netAsset ≠ 0)
  | Except.error _ => []

/-- `getIsolatedMarginAccountBalance`: fetch `/sapi/v1/margin/isolated/account`,
keep pairs with a nonzero base or quote net amount; a failure yields the empty
list. -/
def getIsolatedMarginAccountBalance (env : Env) : List IsolatedMarginAsset :=
  match env.isolatedFetch with
  | Except.ok l =>
      l.filter fun a =>
        decide (a.baseAsset.netAsset ≠ 0) || decide (a.quoteAsset.netAsset ≠ 0)
  | Except.error _ => []

/-- `getPrice`: serve the uppercased symbol from the price cache when
`useCache` is set and an entry exists; otherwise perform the REST lookup,
store the result under the uppercased symbol and return it; a lookup failure
is rethrown.  The third component counts REST price requests. -/
def getPrice (env : Env) (s : ClientState) (symbol : String) (useCache : Bool) :
    Except String ℚ × ClientState × ℕ :=
  match useCache, cacheGet? s.priceCache (upper symbol) with
  | true, some p => (Except.ok p, s, 0)
  | _, _ =>
      match env.restPrice symbol with
      | Except.ok p =>
          (Except.ok p, { s with priceCache := cacheSet s.priceCache (upper symbol) p }, 1)
      | Except.error e => (Except.error e, s, 1)

/-- One iteration of the spot loop of `getTotalEstimatedBalance`: USDT adds
`free + locked` directly; any other asset with positive total is priced via
`getPrice`, a pricing failure skipping the asset. -/
def spotStep (env : Env) (useCache : Bool) (acc : ℚ × ClientState × ℕ)
    (b : BalanceInfo) : ℚ × ClientState × ℕ :=
  let totalAmount := b.free + b.locked
  if b.asset = "USDT" then (acc.1 + totalAmount, acc.2)
  else if 0 < totalAmount then
    match getPrice env acc.2.1 (b.asset ++ "USDT") useCache with
    | (Except.ok p, s', m) => (acc.1 + totalAmount * p, s', acc.2.2 + m)
    | (Except.error _, s', m) => (acc.1, s', acc.2.2 + m)
  else acc

/-- One iteration of the cross-margin loop: USDT adds the net amount directly;
any other asset with nonzero net amount is priced via `getPrice`, a pricing
failure skipping the asset. -/
def marginStep (env : Env) (useCache : Bool) (acc : ℚ × ClientState × ℕ)
    (b : MarginBalanceInfo) : ℚ × ClientState × ℕ :=
  if b.asset = "USDT" then (acc.1 + b.netAsset, acc.2)
  else if b.netAsset ≠ 0 then
    match getPrice env acc.2.1 (b.asset ++ "USDT") useCache with
    | (Except.ok p, s', m) => (acc.1 + b.netAsset * p, s', acc.2.2 + m)
    | (Except.error _, s', m) => (acc.1, s', acc.2.2 + m)
  else acc

/-- Contribution of one side of an isolated pair: skipped when the net amount
is zero, added directly for USDT, priced via `getPrice` otherwise. -/
def isoSideStep (env : Env) (useCache : Bool) (acc : ℚ × ClientState × ℕ)
    (side : IsoSide) : ℚ × ClientState × ℕ :=
  if side.netAsset ≠ 0 then
    if side.asset = "USDT" then (acc.1 + side.netAsset, acc.2)
    else
      match getPrice env acc.2.1 (side.asset ++ "USDT") useCache with
      | (Except.ok p, s', m) => (acc.1 + side.netAsset * p, s', acc.2.2 + m)
      | (Except.error _, s', m) => (acc.1, s', acc.2.2 + m)
  else acc

/-- One iteration of the isolated-margin loop: the base side then the quote
side of the pair. -/
def isoStep (env : Env) (useCache : Bool) (acc : ℚ × ClientState × ℕ)
    (a : IsolatedMarginAsset) : ℚ × ClientState × ℕ :=
  isoSideStep env useCache (isoSideStep env useCache acc a.baseAsset) a.quoteAsset

/-- The body of `getTotalEstimatedBalance` past the freshness short-circuit:
issue the three account fetches (spot failure is fatal and leaves the state
untouched), sum the three account types, cache the result and stamp the state.
The count `3` stands for the three account HTTP requests of `Promise.all`. -/
def computeTotal (env : Env) (s : ClientState) (useCache : Bool) :
    Except String TotalEstimatedBalance × ClientState × ℕ :=
  match getAccountBalance env with
  | Except.error e => (Except.error e, s, 3)
  | Except.ok spotBalances =>
      let r₁ := spotBalances.foldl (spotStep env useCache) (0, s, 0)
      let r₂ := (getMarginAccountBalance env).foldl (marginStep env useCache) (0, r₁.2.1, 0)
      let r₃ :=
        (getIsolatedMarginAccountBalance env).foldl (isoStep env useCache) (0, r₂.2.1, 0)
      let result : TotalEstimatedBalance :=
        { totalUSDT := r₁.1 + r₂.1 + r₃.1
          spotUSDT := r₁.1
          marginUSDT := r₂.1
          isolatedMarginUSDT := r₃.1 }
      (Except.ok result,
        { r₃.2.1 with
            balanceCache := some result
            lastUpdateTime := env.now
            isInitialized := true },
        3 + r₁.2.2 + r₂.2.2 + r₃.2.2)

/-- `getTotalEstimatedBalance`: when `useCache` is set, a cached snapshot
younger than 30 000 ms is returned unchanged with no network traffic;
otherwise the total is recomputed by `computeTotal`. -/
def getTotalEstimatedBalance (env : Env) (s : ClientState) (useCache : Bool) :
    Except String TotalEstimatedBalance × ClientState × ℕ :=
  match useCache, s.balanceCache with
  | true, some cached =>
      if (env.now : ℤ) - (s.lastUpdateTime : ℤ) < 30000 then (Except.ok cached, s, 0)
      else computeTotal env s true
  | true, none => computeTotal env s true
  | false, _ => computeTotal env s false

/-- `silentlyUpdateBalance`: a no-op unless the client is initialized and the
silent-refresh interval has elapsed; otherwise recompute with `useCache = true`
and, on success, invoke the registered callback; errors are swallowed.  The
second component lists the callback invocations, the third counts HTTP
requests. -/
def silentlyUpdateBalance (env : Env) (silentRefreshInterval : ℕ) (s : ClientState) :
    ClientState × List TotalEstimatedBalance × ℕ :=
  if s.isInitialized = false ∨
      (env.now : ℤ) - (s.lastUpdateTime : ℤ) < (silentRefreshInterval : ℤ) then
    (s, [], 0)
  else
    match getTotalEstimatedBalance env s true with
    | (Except.ok b, s', n) => (s', if s'.hasCallback then [b] else [], n)
    | (Except.error _, s', n) => (s', [], n)

/-- The websocket `message` handler for a well-formed ticker `(symbol, last
price)`: write the symbol **verbatim** into the price cache, then run the
silent update. -/
def onStreamMessage (env : Env) (silentRefreshInterval : ℕ) (s : ClientState)
    (sym : String) (price : ℚ) : ClientState × List TotalEstimatedBalance × ℕ :=
  silentlyUpdateBalance env silentRefreshInterval
    { s with priceCache := cacheSet s.priceCache sym price }

/-- `refreshConfiguration`: reload the credentials from the configuration
store and reset `lastUpdateTime` to `0`. -/
def refreshConfiguration (newKey newSecret : String) (s : ClientState) : ClientState :=
  { s with apiKey := newKey, apiSecret := newSecret, lastUpdateTime := 0 }

/-- Event-level model of the websocket lifecycle: `wsOpen` is whether a socket
object is live, `pendingCloseEvent` that a `close` event is about to be
delivered, `pendingReconnectTimer` that the 5-second reconnect `setTimeout` is
pending, `setupRuns` how many times `setupPriceStream` has executed. -/
structure WsModel where
  wsOpen : Bool
  pendingCloseEvent : Bool
  pendingReconnectTimer : Bool
  setupRuns : ℕ
  deriving Repr, DecidableEq

/-- `dispose`: close the socket (the transport will deliver a `close` event)
and null the reference; no timer is cancelled and no flag is set. -/
def wsDispose (w : WsModel) : WsModel :=
  if w.wsOpen then { w with wsOpen := false, pendingCloseEvent := true } else w

/-- The `close` handler installed by `setupPriceStream`: unconditionally
schedule `setupPriceStream` to run again after 5 seconds. -/
def wsCloseEvent (w : WsModel) : WsModel :=
  if w.pendingCloseEvent then
    { w with pendingCloseEvent := false, pendingReconnectTimer := true }
  else w

/-- Expiry of the reconnect timer: run `setupPriceStream`, re-opening the
stream. -/
def wsTimerFire (w : WsModel) : WsModel :=
  if w.pendingReconnectTimer then
    { w with pendingReconnectTimer := false, wsOpen := true, setupRuns := w.setupRuns + 1 }
  else w

example :
    (getPrice
      { now := 0, spotFetch := Except.error "x", marginFetch := Except.error "x",
        isolatedFetch := Except.error "x", restPrice := fun _ => Except.ok 7 }
      { apiKey := "k", apiSecret := "s", wsOpen := true, priceCache := [],
        balanceCache := none, lastUpdateTime := 0, isInitialized := false,
        hasCallback := false }
      "btcusdt" false).1 = Except.ok 7 := by rfl

example : upper "btcusdt" = "BTCUSDT" := by decide

example : upper "BTCUSDT" = "BTCUSDT" := by decide

/-! ## Basic lemmas about the embedding -/

theorem char_toNat_ofNat_of_valid (n : ℕ) (h : n.isValidChar) :
    (Char.ofNat n).toNat = n := by
  simp [Char.ofNat, h, Char.ofNatAux, Char.toNat, UInt32.toNat]

theorem char_toUpper_toUpper (c : Char) : c.toUpper.toUpper = c.toUpper := by
  have hup : ∀ d : Char, d.toUpper =
      if d.toNat ≥ 97 ∧ d.toNat ≤ 122 then Char.ofNat (d.toNat - 32) else d :=
    fun _ => rfl
  by_cases h : c.toNat ≥ 97 ∧ c.toNat ≤ 122
  · have hv : (c.toNat - 32).isValidChar := Or.inl (by omega)
    have ht : (Char.ofNat (c.toNat - 32)).toNat = c.toNat - 32 :=
      char_toNat_ofNat_of_valid _ hv
    rw [hup c, if_pos h, hup (Char.ofNat (c.toNat - 32)), if_neg (by rw [ht]; omega)]
  · rw [hup c, if_neg h, hup c, if_neg h]

theorem upper_upper (s : String) : upper (upper s) = upper s := by
  unfold upper
  simp [List.map_map, Function.comp_def, char_toUpper_toUpper]

/-- All keys of the price cache are uppercase (fixed by `upper`). -/
def allKeysUpper (c : List (String × ℚ)) : Prop :=
  ∀ kv ∈ c, upper kv.1 = kv.1

/-- The keys of the price cache are pairwise distinct (the `Map` semantics:
at most one entry per symbol). -/
def keysNodup (c : List (String × ℚ)) : Prop :=
  (c.map Prod.fst).Nodup

theorem cacheSet_cons_eq (k₀ k : String) (v₀ v : ℚ) (rest : List (String × ℚ))
    (hk : k₀ = k) : cacheSet ((k₀, v₀) :: rest) k v = (k, v) :: rest := by
  simp [cacheSet, hk]

theorem cacheSet_cons_ne (k₀ k : String) (v₀ v : ℚ) (rest : List (String × ℚ))
    (hk : ¬ k₀ = k) :
    cacheSet ((k₀, v₀) :: rest) k v = (k₀, v₀) :: cacheSet rest k v := by
  simp [cacheSet, hk]

theorem mem_keys_cacheSet (c : List (String × ℚ)) (k : String) (v : ℚ)
    (x : String) (hx : x ∈ (cacheSet c k v).map Prod.fst) :
    x = k ∨ x ∈ c.map Prod.fst := by
  induction c with
  | nil =>
      simp only [cacheSet, List.map_cons, List.map_nil, List.mem_singleton] at hx
      exact Or.inl hx
  | cons kv rest ih =>
      obtain ⟨k₀, v₀⟩ := kv
      by_cases hk : k₀ = k
      · rw [cacheSet_cons_eq k₀ k v₀ v rest hk] at hx
        simp only [List.map_cons, List.mem_cons] at hx
        rcases hx with hx | hx
        · exact Or.inl hx
        · exact Or.inr (by simp only [List.map_cons, List.mem_cons]; exact Or.inr hx)
      · rw [cacheSet_cons_ne k₀ k v₀ v rest hk] at hx
        simp only [List.map_cons, List.mem_cons] at hx
        rcases hx with hx | hx
        · exact Or.inr (by simp only [List.map_cons, List.mem_cons]; exact Or.inl hx)
        · rcases ih hx with h' | h'
          · exact Or.inl h'
          · exact Or.inr (by simp only [List.map_cons, List.mem_cons]; exact Or.inr h')

theorem keysNodup_cacheSet (c : List (String × ℚ)) (k : String) (v : ℚ)
    (h : keysNodup c) : keysNodup (cacheSet c k v) := by
  induction c with
  | nil => simp [cacheSet, keysNodup]
  | cons kv rest ih =>
      obtain ⟨k₀, v₀⟩ := kv
      unfold keysNodup at h ⊢
      simp only [List.map_cons, List.nodup_cons] at h
      by_cases hk : k₀ = k
      · rw [cacheSet_cons_eq k₀ k v₀ v rest hk]
        simp only [List.map_cons, List.nodup_cons]
        exact ⟨by rw [← hk]; exact h.1, h.2⟩
      · rw [cacheSet_cons_ne k₀ k v₀ v rest hk]
        simp only [List.map_cons, List.nodup_cons]
        refine ⟨fun hmem => ?_, ih h.2⟩
        rcases mem_keys_cacheSet rest k v k₀ hmem with h' | h'
        · exact hk h'
        · exact h.1 h'

theorem allKeysUpper_cacheSet (c : List (String × ℚ)) (k : String) (v : ℚ)
    (h : allKeysUpper c) (hk : upper k = k) : allKeysUpper (cacheSet c k v) := by
  induction c with
  | nil =>
      intro kv hkv
      simp [cacheSet] at hkv
      simp [hkv, hk]
  | cons kv₀ rest ih =>
      obtain ⟨k₀, v₀⟩ := kv₀
      have hhead : upper k₀ = k₀ := h (k₀, v₀) (by simp)
      have htail : allKeysUpper rest := fun kv hkv => h kv (by simp [hkv])
      by_cases hk₀ : k₀ = k
      · intro kv hkv
        simp only [cacheSet, if_pos hk₀, List.mem_cons] at hkv
        rcases hkv with rfl | hkv
        · exact hk
        · exact htail kv hkv
      · intro kv hkv
        simp only [cacheSet, if_neg hk₀, List.mem_cons] at hkv
        rcases hkv with rfl | hkv
        · exact hhead
        · exact ih htail kv hkv

/-- The price-cache well-formedness invariant: uppercase keys, no duplicate
keys. -/
def cacheInv (s : ClientState) : Prop :=
  allKeysUpper s.priceCache ∧ keysNodup s.priceCache

theorem foldl_preserves {α σ : Type} (P : σ → Prop) (f : σ → α → σ)
    (hf : ∀ x a, P x → P (f x a)) :
    ∀ (l : List α) (x : σ), P x → P (l.foldl f x)
  | [], _, hx => hx
  | a :: l, x, hx => foldl_preserves P f hf l (f x a) (hf x a hx)

theorem getPrice_cacheInv (env : Env) (s : ClientState) (symbol : String)
    (useCache : Bool) (h : cacheInv s) :
    cacheInv (getPrice env s symbol useCache).2.1 := by
  unfold getPrice
  cases useCache <;> cases hc : cacheGet? s.priceCache (upper symbol) <;>
    cases hp : env.restPrice symbol <;>
    simp only [hc, hp] <;>
    first
      | exact h
      | exact ⟨allKeysUpper_cacheSet _ _ _ h.1 (upper_upper symbol),
          keysNodup_cacheSet _ _ _ h.2⟩

theorem spotStep_cacheInv (env : Env) (useCache : Bool)
    (acc : ℚ × ClientState × ℕ) (b : BalanceInfo) (h : cacheInv acc.2.1) :
    cacheInv (spotStep env useCache acc b).2.1 := by
  unfold spotStep
  by_cases h₁ : b.asset = "USDT"
  · simpa [h₁] using h
  · by_cases h₂ : 0 < b.free + b.locked
    · have hg := getPrice_cacheInv env acc.2.1 (b.asset ++ "USDT") useCache h
      cases hgp : getPrice env acc.2.1 (b.asset ++ "USDT") useCache with
      | mk r rest =>
          obtain ⟨s', m⟩ := rest
          rw [hgp] at hg
          cases r <;> simpa [h₁, h₂, hgp] using hg
    · simpa [h₁, h₂] using h

theorem marginStep_cacheInv (env : Env) (useCache : Bool)
    (acc : ℚ × ClientState × ℕ) (b : MarginBalanceInfo) (h : cacheInv acc.2.1) :
    cacheInv (marginStep env useCache acc b).2.1 := by
  unfold marginStep
  by_cases h₁ : b.asset = "USDT"
  · simpa [h₁] using h
  · by_cases h₂ : b.netAsset ≠ 0
    · have hg := getPrice_cacheInv env acc.2.1 (b.asset ++ "USDT") useCache h
      cases hgp : getPrice env acc.2.1 (b.asset ++ "USDT") useCache with
      | mk r rest =>
          obtain ⟨s', m⟩ := rest
          rw [hgp] at hg
          cases r <;> simpa [h₁, h₂, hgp] using hg
    · simpa [h₁, h₂] using h

theorem isoSideStep_cacheInv (env : Env) (useCache : Bool)
    (acc : ℚ × ClientState × ℕ) (side : IsoSide) (h : cacheInv acc.2.1) :
    cacheInv (isoSideStep env useCache acc side).2.1 := by
  unfold isoSideStep
  by_cases h₁ : side.netAsset ≠ 0
  · by_cases h₂ : side.asset = "USDT"
    · simpa [h₁, h₂] using h
    · have hg := getPrice_cacheInv env acc.2.1 (side.asset ++ "USDT") useCache h
      cases hgp : getPrice env acc.2.1 (side.asset ++ "USDT") useCache with
      | mk r rest =>
          obtain ⟨s', m⟩ := rest
          rw [hgp] at hg
          cases r <;> simpa [h₁, h₂, hgp] using hg
  · simpa [h₁] using h

theorem isoStep_cacheInv (env : Env) (useCache : Bool)
    (acc : ℚ × ClientState × ℕ) (a : IsolatedMarginAsset) (h : cacheInv acc.2.1) :
    cacheInv (isoStep env useCache acc a).2.1 :=
  isoSideStep_cacheInv env useCache _ a.quoteAsset
    (isoSideStep_cacheInv env useCache acc a.baseAsset h)

theorem computeTotal_cacheInv (env : Env) (s : ClientState) (useCache : Bool)
    (h : cacheInv s) : cacheInv (computeTotal env s useCache).2.1 := by
  unfold computeTotal
  cases hs : getAccountBalance env with
  | error e => simpa using h
  | ok l =>
      simp only []
      have h₁ : cacheInv (l.foldl (spotStep env useCache) (0, s, 0)).2.1 :=
        foldl_preserves (fun acc => cacheInv acc.2.1) (spotStep env useCache)
          (spotStep_cacheInv env useCache) l (0, s, 0) h
      have h₂ : cacheInv ((getMarginAccountBalance env).foldl (marginStep env useCache)
          (0, (l.foldl (spotStep env useCache) (0, s, 0)).2.1, 0)).2.1 :=
        foldl_preserves (fun acc => cacheInv acc.2.1) (marginStep env useCache)
          (marginStep_cacheInv env useCache) (getMarginAccountBalance env)
          (0, (l.foldl (spotStep env useCache) (0, s, 0)).2.1, 0) h₁
      have h₃ := foldl_preserves (fun acc => cacheInv acc.2.1) (isoStep env useCache)
          (isoStep_cacheInv env useCache) (getIsolatedMarginAccountBalance env)
          (0, ((getMarginAccountBalance env).foldl (marginStep env useCache)
            (0, (l.foldl (spotStep env useCache) (0, s, 0)).2.1, 0)).2.1, 0) h₂
      exact h₃

theorem getTotalEstimatedBalance_cacheInv (env : Env) (s : ClientState)
    (useCache : Bool) (h : cacheInv s) :
    cacheInv (getTotalEstimatedBalance env s useCache).2.1 := by
  unfold getTotalEstimatedBalance
  cases useCache <;> cases hc : s.balanceCache <;>
    simp only [] <;>
    first
      | exact computeTotal_cacheInv env s _ h
      | (by_cases ht : (env.now : ℤ) - (s.lastUpdateTime : ℤ) < 30000 <;>
          simp only [ht, if_true, if_false] <;>
          first
            | exact h
            | exact computeTotal_cacheInv env s _ h)

theorem computeTotal_ok (env : Env) (s : ClientState) (useCache : Bool)
    (b : TotalEstimatedBalance) (s' : ClientState) (n : ℕ)
    (h : computeTotal env s useCache = (Except.ok b, s', n)) :
    b.totalUSDT = b.spotUSDT + b.marginUSDT + b.isolatedMarginUSDT ∧
    s'.balanceCache = some b ∧ s'.lastUpdateTime = env.now ∧
    s'.isInitialized = true := by
  unfold computeTotal at h
  cases hs : getAccountBalance env with
  | error e => rw [hs] at h; simp at h
  | ok l =>
      rw [hs] at h
      simp only [Prod.mk.injEq, Except.ok.injEq] at h
      obtain ⟨hb, hs', _⟩ := h
      subst hb
      subst hs'
      exact ⟨rfl, rfl, rfl, rfl⟩

theorem computeTotal_spot_err (env : Env) (s : ClientState) (useCache : Bool)
    (e : String) (hf : env.spotFetch = Except.error e) :
    computeTotal env s useCache = (Except.error e, s, 3) := by
  unfold computeTotal
  have : getAccountBalance env = Except.error e := by
    unfold getAccountBalance; rw [hf]
  rw [this]

theorem gTEB_cache (env : Env) (s : ClientState) (cached : TotalEstimatedBalance)
    (hc : s.balanceCache = some cached)
    (ht : (env.now : ℤ) - (s.lastUpdateTime : ℤ) < 30000) :
    getTotalEstimatedBalance env s true = (Except.ok cached, s, 0) := by
  unfold getTotalEstimatedBalance
  rw [hc]
  simp only [ht, if_true]

theorem gTEB_bypass (env : Env) (s : ClientState) (useCache : Bool)
    (h : useCache = false ∨ s.balanceCache = none ∨
      ¬ (env.now : ℤ) - (s.lastUpdateTime : ℤ) < 30000) :
    getTotalEstimatedBalance env s useCache = computeTotal env s useCache := by
  unfold getTotalEstimatedBalance
  cases useCache
  · cases s.balanceCache <;> rfl
  · rcases h with h | h | h
    · exact absurd h (by simp)
    · rw [h]
    · cases hc : s.balanceCache with
      | none => rfl
      | some cached => simp only [if_neg h]

theorem silent_noop (env : Env) (interval : ℕ) (s : ClientState)
    (h : s.isInitialized = false ∨
      (env.now : ℤ) - (s.lastUpdateTime : ℤ) < (interval : ℤ)) :
    silentlyUpdateBalance env interval s = (s, [], 0) := by
  unfold silentlyUpdateBalance
  rw [if_pos h]

theorem silent_notifies (env : Env) (interval : ℕ) (s : ClientState)
    (b : TotalEstimatedBalance)
    (hinit : s.isInitialized = true) (hcb : s.hasCallback = true)
    (hcache : s.balanceCache = some b)
    (h1 : (interval : ℤ) ≤ (env.now : ℤ) - (s.lastUpdateTime : ℤ))
    (h2 : (env.now : ℤ) - (s.lastUpdateTime : ℤ) < 30000) :
    silentlyUpdateBalance env interval s = (s, [b], 0) := by
  unfold silentlyUpdateBalance
  rw [if_neg (by
    rintro (hbad | hbad)
    · rw [hinit] at hbad; exact absurd hbad (by simp)
    · exact absurd hbad (not_lt.mpr h1))]
  rw [gTEB_cache env s b hcache h2]
  simp only [hcb, if_true]

theorem silent_cacheInv (env : Env) (interval : ℕ) (s : ClientState)
    (h : cacheInv s) : cacheInv (silentlyUpdateBalance env interval s).1 := by
  unfold silentlyUpdateBalance
  by_cases hg : s.isInitialized = false ∨
      (env.now : ℤ) - (s.lastUpdateTime : ℤ) < (interval : ℤ)
  · rw [if_pos hg]; exact h
  · rw [if_neg hg]
    have hp := getTotalEstimatedBalance_cacheInv env s true h
    cases hr : getTotalEstimatedBalance env s true with
    | mk r rest =>
        obtain ⟨s', n⟩ := rest
        rw [hr] at hp
        cases r <;> simpa using hp

/-! ## Concrete fixtures for witnesses and counterexamples -/

/-- A snapshot satisfying the additivity invariant. -/
def snap0 : TotalEstimatedBalance :=
  { totalUSDT := 90000, spotUSDT := 90000, marginUSDT := 0, isolatedMarginUSDT := 0 }

/-- An initialized client holding `snap0` computed at t = 1000 ms, with a
registered callback and one cached price. -/
def stateCached : ClientState :=
  { apiKey := "k", apiSecret := "sec", wsOpen := true,
    priceCache := [("BTCUSDT", 60000)], balanceCache := some snap0,
    lastUpdateTime := 1000, isInitialized := true, hasCallback := true }

/-- A freshly constructed client: nothing cached, not initialized. -/
def stateEmpty : ClientState :=
  { apiKey := "k", apiSecret := "sec", wsOpen := true, priceCache := [],
    balanceCache := none, lastUpdateTime := 0, isInitialized := false,
    hasCallback := false }

/-- An environment in which every endpoint fails. -/
def envAllFail : Env :=
  { now := 2000, spotFetch := Except.error "spot down",
    marginFetch := Except.error "margin down",
    isolatedFetch := Except.error "isolated down",
    restPrice := fun _ => Except.error "price down" }

/-- An environment with a healthy spot account and failing margin and price
endpoints. -/
def envSpotOnly : Env :=
  { now := 2000,
    spotFetch := Except.ok [{ asset := "USDT", free := 5, locked := 0 }],
    marginFetch := Except.error "margin down",
    isolatedFetch := Except.error "isolated down",
    restPrice := fun _ => Except.error "price down" }

/-! ## Claims -/

/-- **C1**: a `getTotalEstimatedBalance` call with `useCache = true` that finds
a cached snapshot whose age is strictly under 30 000 ms returns that snapshot
unchanged, performs zero network requests (no account fetches, no price
lookups) and leaves the whole client state — in particular `balanceCache`,
`lastUpdateTime` and `isInitialized` — untouched; a second such call within
the window returns an equal snapshot. -/
theorem C1_freshness_short_circuit (env env' : Env) (s : ClientState)
    (cached : TotalEstimatedBalance) (hc : s.balanceCache = some cached)
    (h1 : (env.now : ℤ) - (s.lastUpdateTime : ℤ) < 30000)
    (h2 : (env'.now : ℤ) - (s.lastUpdateTime : ℤ) < 30000) :
    getTotalEstimatedBalance env s true = (Except.ok cached, s, 0) ∧
    getTotalEstimatedBalance env' (getTotalEstimatedBalance env s true).2.1 true =
      (Except.ok cached, s, 0) := by
  have hA := gTEB_cache env s cached hc h1
  refine ⟨hA, ?_⟩
  rw [hA]
  exact gTEB_cache env' s cached hc h2

theorem C1_freshness_short_circuit_witness :
    getTotalEstimatedBalance { envAllFail with now := 1500 } stateCached true =
      (Except.ok snap0, stateCached, 0) ∧
    getTotalEstimatedBalance { envAllFail with now := 2500 }
      (getTotalEstimatedBalance { envAllFail with now := 1500 } stateCached true).2.1
      true = (Except.ok snap0, stateCached, 0) :=
  C1_freshness_short_circuit { envAllFail with now := 1500 }
    { envAllFail with now := 2500 } stateCached snap0 rfl (by decide) (by decide)

/-- **C2**: when the spot account fetch fails (and the computation actually
runs, i.e. the freshness short-circuit does not apply), the error is
propagated unchanged to the caller and the client state is returned exactly
as it was: no snapshot is cached, `balanceCache`, `lastUpdateTime` and
`isInitialized` are untouched. -/
theorem C2_spot_failure_atomicity (env : Env) (s : ClientState) (useCache : Bool)
    (e : String) (hf : env.spotFetch = Except.error e)
    (hby : useCache = false ∨ s.balanceCache = none ∨
      ¬ (env.now : ℤ) - (s.lastUpdateTime : ℤ) < 30000) :
    getTotalEstimatedBalance env s useCache = (Except.error e, s, 3) := by
  rw [gTEB_bypass env s useCache hby]
  exact computeTotal_spot_err env s useCache e hf

theorem C2_spot_failure_atomicity_witness :
    getTotalEstimatedBalance envAllFail stateEmpty false =
      (Except.error "spot down", stateEmpty, 3) :=
  C2_spot_failure_atomicity envAllFail stateEmpty false "spot down" rfl (Or.inl rfl)

/-- **C3**: every snapshot `getTotalEstimatedBalance` returns — freshly
computed or served from the cache — satisfies
`totalUSDT = spotUSDT + marginUSDT + isolatedMarginUSDT` exactly, for every
environment, holding set and price-cache content, assuming every snapshot
already in the cache does (which the first conjunct shows is maintained). -/
theorem C3_additivity (env : Env) (s : ClientState) (useCache : Bool)
    (b : TotalEstimatedBalance) (s' : ClientState) (n : ℕ)
    (hs : ∀ c, s.balanceCache = some c →
      c.totalUSDT = c.spotUSDT + c.marginUSDT + c.isolatedMarginUSDT)
    (h : getTotalEstimatedBalance env s useCache = (Except.ok b, s', n)) :
    b.totalUSDT = b.spotUSDT + b.marginUSDT + b.isolatedMarginUSDT ∧
    ∀ c, s'.balanceCache = some c →
      c.totalUSDT = c.spotUSDT + c.marginUSDT + c.isolatedMarginUSDT := by
  cases useCache with
  | false =>
      rw [gTEB_bypass env s false (Or.inl rfl)] at h
      obtain ⟨hb, hsc, _, _⟩ := computeTotal_ok env s false b s' n h
      exact ⟨hb, fun c hc => by rw [hsc] at hc; cases hc; exact hb⟩
  | true =>
      cases hcs : s.balanceCache with
      | none =>
          rw [gTEB_bypass env s true (Or.inr (Or.inl hcs))] at h
          obtain ⟨hb, hsc, _, _⟩ := computeTotal_ok env s true b s' n h
          exact ⟨hb, fun c hc => by rw [hsc] at hc; cases hc; exact hb⟩
      | some cached =>
          by_cases ht : (env.now : ℤ) - (s.lastUpdateTime : ℤ) < 30000
          · rw [gTEB_cache env s cached hcs ht] at h
            simp only [Prod.mk.injEq, Except.ok.injEq] at h
            obtain ⟨hb, hs', _⟩ := h
            subst hb
            subst hs'
            exact ⟨hs _ hcs, hs⟩
          · rw [gTEB_bypass env s true (Or.inr (Or.inr ht))] at h
            obtain ⟨hb, hsc, _, _⟩ := computeTotal_ok env s true b s' n h
            exact ⟨hb, fun c hc => by rw [hsc] at hc; cases hc; exact hb⟩

theorem C3_additivity_witness :
    snap0.totalUSDT = snap0.spotUSDT + snap0.marginUSDT + snap0.isolatedMarginUSDT ∧
    ∀ c, stateCached.balanceCache = some c →
      c.totalUSDT = c.spotUSDT + c.marginUSDT + c.isolatedMarginUSDT :=
  C3_additivity { envAllFail with now := 1500 } stateCached true snap0 stateCached 0
    (fun c hc => by
      have h' : some snap0 = some c := hc
      cases h'
      norm_num [snap0])
    rfl

/-- **C4** counterexample: a price-cache entry for `BTCUSDT` exists, yet
`getPrice "BTCUSDT"` with `preferCache = false` and a failing REST lookup
propagates the error instead of returning the cached `60000` — there is no
cache fallback on the fresh-lookup path. -/
theorem C4_counterexample :
    cacheGet? stateCached.priceCache "BTCUSDT" = some 60000 ∧
    getPrice envAllFail stateCached "BTCUSDT" false =
      (Except.error "price down", stateCached, 1) :=
  ⟨rfl, rfl⟩

/-- **C4** (amended): `getPrice` with `preferCache = false` always performs the
fresh REST lookup and propagates its failure unchanged, regardless of any
cache entry; the cache is consulted only when `preferCache = true` and an
entry for the uppercased symbol exists (then no lookup happens); and a
`getPrice` failure always is the failure of a fresh lookup it performed. -/
theorem C4_no_cache_fallback (env : Env) (s : ClientState) (symbol : String) :
    (∀ e, env.restPrice symbol = Except.error e →
      getPrice env s symbol false = (Except.error e, s, 1)) ∧
    (∀ p, cacheGet? s.priceCache (upper symbol) = some p →
      getPrice env s symbol true = (Except.ok p, s, 0)) ∧
    (∀ useCache e s' n, getPrice env s symbol useCache = (Except.error e, s', n) →
      env.restPrice symbol = Except.error e) := by
  refine ⟨?_, ?_, ?_⟩
  · intro e he
    unfold getPrice
    cases hc : cacheGet? s.priceCache (upper symbol) <;> rw [he]
  · intro p hp
    unfold getPrice
    rw [hp]
  · intro useCache e s' n h
    unfold getPrice at h
    cases useCache with
    | true =>
        cases hc : cacheGet? s.priceCache (upper symbol) with
        | some p => rw [hc] at h; simp at h
        | none =>
            rw [hc] at h
            cases hp : env.restPrice symbol with
            | ok p => rw [hp] at h; simp at h
            | error e₀ =>
                rw [hp] at h
                simp only [Prod.mk.injEq, Except.error.injEq] at h
                rw [h.1]
    | false =>
        cases hc : cacheGet? s.priceCache (upper symbol) with
        | some p =>
            rw [hc] at h
            cases hp : env.restPrice symbol with
            | ok p' => rw [hp] at h; simp at h
            | error e₀ =>
                rw [hp] at h
                simp only [Prod.mk.injEq, Except.error.injEq] at h
                rw [h.1]
        | none =>
            rw [hc] at h
            cases hp : env.restPrice symbol with
            | ok p' => rw [hp] at h; simp at h
            | error e₀ =>
                rw [hp] at h
                simp only [Prod.mk.injEq, Except.error.injEq] at h
                rw [h.1]

theorem C4_no_cache_fallback_witness :
    getPrice envAllFail stateCached "BTCUSDT" false =
      (Except.error "price down", stateCached, 1) ∧
    getPrice envAllFail stateCached "BTCUSDT" true =
      (Except.ok 60000, stateCached, 0) ∧
    envAllFail.restPrice "BTCUSDT" = Except.error "price down" :=
  ⟨(C4_no_cache_fallback envAllFail stateCached "BTCUSDT").1 "price down" rfl,
   (C4_no_cache_fallback envAllFail stateCached "BTCUSDT").2.1 60000 (by decide),
   (C4_no_cache_fallback envAllFail stateCached "BTCUSDT").2.2 false "price down"
     stateCached 1 rfl⟩

/-- **C5**: when the spot fetch succeeds and the computation runs, a failing
cross-margin fetch yields the empty holding set and the call still returns a
snapshot with `marginUSDT = 0` without raising; likewise a failing
isolated-margin fetch yields the empty set and a snapshot with
`isolatedMarginUSDT = 0`. -/
theorem C5_margin_failure_tolerance (env : Env) (s : ClientState) (useCache : Bool)
    (l : List BalanceInfo) (hspot : env.spotFetch = Except.ok l)
    (hby : useCache = false ∨ s.balanceCache = none ∨
      ¬ (env.now : ℤ) - (s.lastUpdateTime : ℤ) < 30000) :
    (∀ e, env.marginFetch = Except.error e →
      getMarginAccountBalance env = [] ∧
      ∃ b s' n, getTotalEstimatedBalance env s useCache = (Except.ok b, s', n) ∧
        b.marginUSDT = 0) ∧
    (∀ e, env.isolatedFetch = Except.error e →
      getIsolatedMarginAccountBalance env = [] ∧
      ∃ b s' n, getTotalEstimatedBalance env s useCache = (Except.ok b, s', n) ∧
        b.isolatedMarginUSDT = 0) := by
  rw [gTEB_bypass env s useCache hby]
  have haccount : getAccountBalance env =
      Except.ok (l.filter fun x => decide (0 < x.free) || decide (0 < x.locked)) := by
    unfold getAccountBalance
    rw [hspot]
  constructor
  · intro e hm
    have hmargin : getMarginAccountBalance env = [] := by
      unfold getMarginAccountBalance
      rw [hm]
    refine ⟨hmargin, ?_⟩
    unfold computeTotal
    rw [haccount, hmargin]
    exact ⟨_, _, _, rfl, rfl⟩
  · intro e hi
    have hiso : getIsolatedMarginAccountBalance env = [] := by
      unfold getIsolatedMarginAccountBalance
      rw [hi]
    refine ⟨hiso, ?_⟩
    unfold computeTotal
    rw [haccount, hiso]
    exact ⟨_, _, _, rfl, rfl⟩

theorem C5_margin_failure_tolerance_witness :
    getMarginAccountBalance envSpotOnly = [] ∧
    (∃ b s' n, getTotalEstimatedBalance envSpotOnly stateEmpty false =
      (Except.ok b, s', n) ∧ b.marginUSDT = 0) ∧
    getIsolatedMarginAccountBalance envSpotOnly = [] ∧
    ∃ b s' n, getTotalEstimatedBalance envSpotOnly stateEmpty false =
      (Except.ok b, s', n) ∧ b.isolatedMarginUSDT = 0 := by
  have h := C5_margin_failure_tolerance envSpotOnly stateEmpty false
    [{ asset := "USDT", free := 5, locked := 0 }] rfl (Or.inl rfl)
  have h₁ := h.1 "margin down" rfl
  have h₂ := h.2 "isolated down" rfl
  exact ⟨h₁.1, h₁.2, h₂.1, h₂.2⟩

/-- **C6** counterexample: the streaming put path stores the tick's symbol
verbatim — a tick carrying the lowercase symbol `"btcusdt"` creates a
price-cache key that is not uppercase, so not every write normalizes the
symbol. -/
theorem C6_counterexample :
    (onStreamMessage envAllFail 5000 stateEmpty "btcusdt" 50000).1.priceCache =
      [("btcusdt", 50000)] ∧
    upper "btcusdt" ≠ "btcusdt" := by
  constructor
  · rfl
  · decide

/-- **C6** (amended): the REST path (`getPrice`) uppercases the symbol on both
read and write, and `Map` semantics keep at most one entry per key; the
streaming put path stores the tick's symbol verbatim, so uppercase keys and a
single canonical key per pair are guaranteed only when the tick's symbol is
already uppercase (as Binance's stream delivers). -/
theorem C6_uppercase_keys (env : Env) (s : ClientState) (symbol : String)
    (useCache : Bool) (price : ℚ) (interval : ℕ)
    (hs : allKeysUpper s.priceCache) (hnd : keysNodup s.priceCache) :
    (allKeysUpper (getPrice env s symbol useCache).2.1.priceCache ∧
      keysNodup (getPrice env s symbol useCache).2.1.priceCache) ∧
    (upper symbol = symbol →
      allKeysUpper (onStreamMessage env interval s symbol price).1.priceCache ∧
      keysNodup (onStreamMessage env interval s symbol price).1.priceCache) := by
  refine ⟨getPrice_cacheInv env s symbol useCache ⟨hs, hnd⟩, fun hsym => ?_⟩
  have h₁ : cacheInv { s with priceCache := cacheSet s.priceCache symbol price } :=
    ⟨allKeysUpper_cacheSet _ _ _ hs hsym, keysNodup_cacheSet _ _ _ hnd⟩
  exact silent_cacheInv env interval _ h₁

theorem C6_uppercase_keys_witness :
    (allKeysUpper (getPrice envAllFail stateEmpty "ethusdt" false).2.1.priceCache ∧
      keysNodup (getPrice envAllFail stateEmpty "ethusdt" false).2.1.priceCache) ∧
    (allKeysUpper
        (onStreamMessage envAllFail 5000 stateEmpty "BTCUSDT" 50000).1.priceCache ∧
      keysNodup
        (onStreamMessage envAllFail 5000 stateEmpty "BTCUSDT" 50000).1.priceCache) := by
  have h := C6_uppercase_keys envAllFail stateEmpty "ethusdt" false 50000 5000
    (fun kv hkv => absurd hkv (by simp [stateEmpty]))
    (by simp [keysNodup, stateEmpty])
  have h' := C6_uppercase_keys envAllFail stateEmpty "BTCUSDT" false 50000 5000
    (fun kv hkv => absurd hkv (by simp [stateEmpty]))
    (by simp [keysNodup, stateEmpty])
  exact ⟨h.1, h'.2 (by decide)⟩

/-- **C7** (code bug): `dispose` closes the socket but installs no guard and
cancels nothing, while the `close` handler of `setupPriceStream`
unconditionally schedules a reconnect; hence the close event caused by
`dispose` itself leads to `setupPriceStream` running again — the claim that no
reconnect ever follows `dispose` is violated by the code. -/
theorem C7_reconnect_after_dispose (w : WsModel) (hw : w.wsOpen = true) :
    (wsDispose w).wsOpen = false ∧
    (wsTimerFire (wsCloseEvent (wsDispose w))).setupRuns = w.setupRuns + 1 ∧
    (wsTimerFire (wsCloseEvent (wsDispose w))).wsOpen = true := by
  simp [wsDispose, wsCloseEvent, wsTimerFire, hw]

theorem C7_reconnect_after_dispose_witness :
    (wsDispose ⟨true, false, false, 0⟩).wsOpen = false ∧
    (wsTimerFire (wsCloseEvent (wsDispose ⟨true, false, false, 0⟩))).setupRuns = 0 + 1 ∧
    (wsTimerFire (wsCloseEvent (wsDispose ⟨true, false, false, 0⟩))).wsOpen = true :=
  C7_reconnect_after_dispose ⟨true, false, false, 0⟩ rfl

/-- **C8** counterexample: with the default 5000 ms interval, an elapsed time
of exactly 5000 ms does **not** strictly exceed the interval, yet
`silentlyUpdateBalance` proceeds and invokes the subscriber callback (the
guard is `≥`, not `>`). -/
theorem C8_counterexample :
    ((6000 : ℤ) - (stateCached.lastUpdateTime : ℤ) = 5000) ∧
    ¬ ((6000 : ℤ) - (stateCached.lastUpdateTime : ℤ) > 5000) ∧
    silentlyUpdateBalance { envAllFail with now := 6000 } 5000 stateCached =
      (stateCached, [snap0], 0) := by
  refine ⟨by decide, by decide, ?_⟩
  rfl

/-- **C8** (amended): `silentlyUpdateBalance` performs no fetch and invokes no
callback unless `isInitialized` is true and the elapsed time since
`lastUpdateTime` is **at least** the silent-refresh interval; whenever the
guard fails it is a strict no-op: same state, no callback, no requests. -/
theorem C8_silent_guard (env : Env) (interval : ℕ) (s : ClientState)
    (h : s.isInitialized = false ∨
      (env.now : ℤ) - (s.lastUpdateTime : ℤ) < (interval : ℤ)) :
    silentlyUpdateBalance env interval s = (s, [], 0) :=
  silent_noop env interval s h

theorem C8_silent_guard_witness :
    silentlyUpdateBalance envAllFail 5000 stateEmpty = (stateEmpty, [], 0) :=
  C8_silent_guard envAllFail 5000 stateEmpty (Or.inl rfl)

/-- **C9**: if the client is initialized, a callback is registered, a snapshot
is cached, and the elapsed time lies in the window between the silent-refresh
interval (inclusive) and the 30 s freshness window, then a stream tick writes
the tick's price and re-notifies the subscriber with exactly the cached
snapshot: no account fetches, no price lookups, and `balanceCache`,
`lastUpdateTime` and `isInitialized` unchanged. -/
theorem C9_stale_renotification (env : Env) (interval : ℕ) (s : ClientState)
    (b : TotalEstimatedBalance) (sym : String) (p : ℚ)
    (hinit : s.isInitialized = true) (hcb : s.hasCallback = true)
    (hcache : s.balanceCache = some b)
    (h1 : (interval : ℤ) ≤ (env.now : ℤ) - (s.lastUpdateTime : ℤ))
    (h2 : (env.now : ℤ) - (s.lastUpdateTime : ℤ) < 30000) :
    onStreamMessage env interval s sym p =
      ({ s with priceCache := cacheSet s.priceCache sym p }, [b], 0) := by
  unfold onStreamMessage
  exact silent_notifies env interval
    { s with priceCache := cacheSet s.priceCache sym p } b hinit hcb hcache h1 h2

theorem C9_stale_renotification_witness :
    onStreamMessage { envAllFail with now := 7000 } 5000 stateCached "BTCUSDT" 61000 =
      ({ stateCached with
          priceCache := cacheSet stateCached.priceCache "BTCUSDT" 61000 },
        [snap0], 0) :=
  C9_stale_renotification { envAllFail with now := 7000 } 5000 stateCached snap0
    "BTCUSDT" 61000 rfl rfl rfl (by decide) (by decide)

/-- **C10**: `refreshConfiguration` reloads only `apiKey` and `apiSecret` and
resets `lastUpdateTime` to 0; the price cache, the cached snapshot,
`isInitialized`, the websocket state and the registered callback are all left
unchanged. -/
theorem C10_refreshConfiguration_frame (newKey newSecret : String) (s : ClientState) :
    (refreshConfiguration newKey newSecret s).apiKey = newKey ∧
    (refreshConfiguration newKey newSecret s).apiSecret = newSecret ∧
    (refreshConfiguration newKey newSecret s).lastUpdateTime = 0 ∧
    (refreshConfiguration newKey newSecret s).priceCache = s.priceCache ∧
    (refreshConfiguration newKey newSecret s).balanceCache = s.balanceCache ∧
    (refreshConfiguration newKey newSecret s).isInitialized = s.isInitialized ∧
    (refreshConfiguration newKey newSecret s).wsOpen = s.wsOpen ∧
    (refreshConfiguration newKey newSecret s).hasCallback = s.hasCallback :=
  ⟨rfl, rfl, rfl, rfl, rfl, rfl, rfl, rfl⟩
